import Mathlib

/-!
# Verification of the `lune-std-roblox` module orchestration

Shallow embedding of `src/crates/lune-std-roblox/src/lib.rs`: the document
codec bridge (serialize/deserialize entry points), the instance registry
bridge (`implementProperty`, the ByteSize capability installer), the
reflection-database singleton, and the module table construction.

The codec library (`lune_roblox::document`), the registry internals
(`InstanceRegistry`) and the table builder (`lune_utils::TableBuilder`) are
code of this repository that is not included here; they are modelled from the
specification where a definition carries a `Modelled from the spec:` comment.
Everything else is translated directly from `lib.rs`.
-/

namespace LuneRoblox

/-- A Lua value, as far as the orchestration layer observes it. -/
inductive Value where
  | nil : Value
  | boolean (b : Bool) : Value
  | num (n : Nat) : Value
  | str (s : String) : Value
deriving DecidableEq, Repr

/-- Lua-level errors surfaced to the host (`mlua::Error`): `runtime` for
`LuaError::runtime(..)`, `external` for errors converted via `into_lua_err`. -/
inductive LuaError where
  | runtime (msg : String) : LuaError
  | external (msg : String) : LuaError
deriving DecidableEq, Repr

/-- An instance-tree node: class name, properties, ordered children.
Shallow embedding of `lune_roblox::instance::Instance` viewed as the tree it
references (aliasing and document storage are not observable here). -/
inductive Inst where
  | mk (className : String) (props : List (String × Value)) (children : List Inst) : Inst

/-- The queryable class name of an instance (`Instance::get_class_name`). -/
def Inst.className : Inst → String
  | .mk c _ _ => c

def Inst.props : Inst → List (String × Value)
  | .mk _ ps _ => ps

def Inst.children : Inst → List Inst
  | .mk _ _ ch => ch

/-- Document kinds (`lune_roblox::document::DocumentKind`). -/
inductive DocumentKind where
  | Place : DocumentKind
  | Model : DocumentKind
deriving DecidableEq, Repr

/-- Wire formats (`lune_roblox::document::DocumentFormat`). -/
inductive DocumentFormat where
  | Binary : DocumentFormat
  | Xml : DocumentFormat
deriving DecidableEq, Repr

/-- Codec errors (`lune_roblox::document::DocumentError`). -/
inductive DocumentError where
  | malformed : DocumentError
  | wrongKind : DocumentError
deriving DecidableEq, Repr

/-- A loaded document: one root instance (`Place`) or an ordered sequence of
root instances (`Model`), as in the spec's Document Abstraction. -/
inductive Document where
  | place (root : Inst) : Document
  | model (roots : List Inst) : Document

/-- The kind a document records. -/
def Document.kind : Document → DocumentKind
  | .place _ => .Place
  | .model _ => .Model

/-- A wire token. Modelled from the spec: the field-level byte layout of the
codec library is explicitly out of scope ("assumed to be provided by the codec
library and is not re-specified here"), so the byte stream is modelled at
token granularity. -/
inductive Tok where
  | nat (n : Nat) : Tok
  | str (s : String) : Tok
deriving DecidableEq, Repr

/-- Token encoding of a property value. -/
def encodeValue : Value → List Tok
  | .nil => [.nat 0]
  | .boolean b => [.nat 1, .nat (cond b 1 0)]
  | .num n => [.nat 2, .nat n]
  | .str s => [.nat 3, .str s]

/-- Token decoding of a property value; returns the value and the remaining
tokens. -/
def decodeValue : List Tok → Option (Value × List Tok)
  | .nat 0 :: rest => some (.nil, rest)
  | .nat 1 :: .nat b :: rest => some (.boolean (b != 0), rest)
  | .nat 2 :: .nat n :: rest => some (.num n, rest)
  | .nat 3 :: .str s :: rest => some (.str s, rest)
  | _ => none

/-- Token encoding of one named property. -/
def encodeProp (p : String × Value) : List Tok :=
  .str p.1 :: encodeValue p.2

/-- Token encoding of a property list. -/
def encodeProps : List (String × Value) → List Tok
  | [] => []
  | p :: t => encodeProp p ++ encodeProps t

/-- Count-driven decoding of a property list. -/
def decodeProps : Nat → List Tok → Option (List (String × Value) × List Tok)
  | 0, toks => some ([], toks)
  | n + 1, .str name :: rest =>
    match decodeValue rest with
    | some (v, r1) =>
      match decodeProps n r1 with
      | some (ps, r2) => some ((name, v) :: ps, r2)
      | none => none
    | none => none
  | _ + 1, _ => none

mutual

/-- Token encoding of an instance node: class name, counted properties,
counted children. -/
def encodeInst : Inst → List Tok
  | .mk c ps ch =>
    .str c :: .nat ps.length :: (encodeProps ps ++ (.nat ch.length :: encodeList ch))

/-- Token encoding of a sequence of instances, in order. -/
def encodeList : List Inst → List Tok
  | [] => []
  | i :: t => encodeInst i ++ encodeList t

end

mutual

/-- Fuel-indexed decoding of one instance node. -/
def decodeInst : Nat → List Tok → Option (Inst × List Tok)
  | f + 1, .str c :: .nat np :: rest =>
    match decodeProps np rest with
    | some (ps, .nat nc :: r2) =>
      match decodeInstList f nc r2 with
      | some (ch, r3) => some (.mk c ps ch, r3)
      | none => none
    | _ => none
  | _, _ => none
termination_by fuel _ => (fuel, 0)

/-- Fuel-indexed, count-driven decoding of a sequence of instances. -/
def decodeInstList : Nat → Nat → List Tok → Option (List Inst × List Tok)
  | _, 0, toks => some ([], toks)
  | fuel, n + 1, toks =>
    match decodeInst fuel toks with
    | some (i, r) =>
      match decodeInstList fuel n r with
      | some (l, r2) => some (i :: l, r2)
      | none => none
    | none => none
termination_by fuel n _ => (fuel, n + 1)

end

/-- The leading magic token of each wire format; `from_bytes` sniffs the
format from it rather than taking a format argument. -/
def fmtMagic : DocumentFormat → Nat
  | .Binary => 0
  | .Xml => 1

/-- The kind tag stored in the stream. -/
def kindTag : DocumentKind → Nat
  | .Place => 0
  | .Model => 1

/-- Modelled from the spec: `Document::to_bytes_with_format` of the codec
library (missing from the included sources). Encodes the document tree to the
requested wire format: format magic, kind tag, then the instance payload;
deterministic for a given document state. -/
def Document.to_bytes_with_format : Document → DocumentFormat → Except DocumentError (List Tok)
  | .place root, f => .ok (.nat (fmtMagic f) :: .nat 0 :: encodeInst root)
  | .model roots, f => .ok (.nat (fmtMagic f) :: .nat 1 :: .nat roots.length :: encodeList roots)

/-- Modelled from the spec: `Document::from_bytes` of the codec library
(missing from the included sources). Parses raw bytes as either format,
auto-detected from content; fails with `DocumentError` if the bytes are
malformed or do not match the requested kind. -/
def Document.from_bytes (toks : List Tok) (kind : DocumentKind) : Except DocumentError Document :=
  match toks with
  | .nat m :: .nat k :: rest =>
    if m = 0 ∨ m = 1 then
      match k, kind with
      | 0, .Place =>
        match decodeInst (rest.length + 1) rest with
        | some (i, []) => .ok (.place i)
        | _ => .error .malformed
      | 1, .Model =>
        match rest with
        | .nat n :: payload =>
          match decodeInstList (payload.length + 1) n payload with
          | some (l, []) => .ok (.model l)
          | _ => .error .malformed
        | _ => .error .malformed
      | 0, .Model => .error .wrongKind
      | 1, .Place => .error .wrongKind
      | _, _ => .error .malformed
    else .error .malformed
  | _ => .error .malformed

/-- Modelled from the spec: `Document::into_data_model_instance`, valid only
for `Place` documents. -/
def Document.into_data_model_instance : Document → Except DocumentError Inst
  | .place root => .ok root
  | .model _ => .error .wrongKind

/-- Modelled from the spec: `Document::into_instance_array`, valid only for
`Model` documents. -/
def Document.into_instance_array : Document → Except DocumentError (List Inst)
  | .model roots => .ok roots
  | .place _ => .error .wrongKind

/-- Modelled from the spec: `Document::from_data_model_instance`, wraps a
single instance as a `Place` document. -/
def Document.from_data_model_instance (i : Inst) : Except DocumentError Document :=
  .ok (.place i)

/-- Modelled from the spec: `Document::from_instance_array`, wraps an ordered
sequence of instances as a `Model` document. -/
def Document.from_instance_array (l : List Inst) : Except DocumentError Document :=
  .ok (.model l)

/-- `into_lua_err` on a `DocumentError`: the codec error is converted into an
external Lua error, preserving its message. -/
def DocumentError.message : DocumentError → String
  | .malformed => "malformed document"
  | .wrongKind => "unexpected document kind"

def into_lua_err (e : DocumentError) : LuaError :=
  .external e.message

/-- `deserialize_place` from `lib.rs`: parse the bytes requesting the `Place`
kind, convert the document into its DataModel instance, surface any
`DocumentError` to the awaiting caller. The `spawn_blocking`/await plumbing
delivers exactly the closure's result, so it is the identity here. -/
def deserialize_place (contents : List Tok) : Except LuaError Inst :=
  match (Document.from_bytes contents .Place).bind Document.into_data_model_instance with
  | .ok i => .ok i
  | .error e => .error (into_lua_err e)

/-- `deserialize_model` from `lib.rs`: parse the bytes requesting the `Model`
kind and convert the document into its instance array. -/
def deserialize_model (contents : List Tok) : Except LuaError (List Inst) :=
  match (Document.from_bytes contents .Model).bind Document.into_instance_array with
  | .ok l => .ok l
  | .error e => .error (into_lua_err e)

/-- The format chosen by `serialize_place`/`serialize_model`:
`match as_xml { Some(true) => Xml, _ => Binary }`. -/
def chosen_format (as_xml : Option Bool) : DocumentFormat :=
  match as_xml with
  | some true => .Xml
  | _ => .Binary

/-- `serialize_place` from `lib.rs`: wrap the instance as a `Place` document
and encode it with the chosen format. -/
def serialize_place (data_model : Inst) (as_xml : Option Bool) : Except LuaError (List Tok) :=
  match (Document.from_data_model_instance data_model).bind
      (fun doc => doc.to_bytes_with_format (chosen_format as_xml)) with
  | .ok bytes => .ok bytes
  | .error e => .error (into_lua_err e)

/-- `serialize_model` from `lib.rs`: wrap the instances as a `Model` document
and encode it with the chosen format. -/
def serialize_model (instances : List Inst) (as_xml : Option Bool) : Except LuaError (List Tok) :=
  match (Document.from_instance_array instances).bind
      (fun doc => doc.to_bytes_with_format (chosen_format as_xml)) with
  | .ok bytes => .ok bytes
  | .error e => .error (into_lua_err e)

/-! ## The instance registry -/

/-- A property getter as stored in the registry: a Lua callable taking the
instance. -/
abbrev PropGetter := Inst → Except LuaError Value

/-- A property setter as stored in the registry: a Lua callable taking the
raw multivalue arguments. -/
abbrev PropSetter := List Value → Except LuaError Unit

/-- A registry error (`RegistryError`): wraps underlying mapping failures. -/
inductive RegistryError where
  | mappingFailure (className propName : String) : RegistryError
deriving DecidableEq, Repr

def RegistryError.message : RegistryError → String
  | .mappingFailure c p => "registry mapping failure for " ++ c ++ "." ++ p

def registry_err_to_lua (e : RegistryError) : LuaError :=
  .external e.message

/-- Upsert into an association list: last write wins, no duplicate keys. -/
def upsertA {α : Type} (k : String × String) (v : α) :
    List ((String × String) × α) → List ((String × String) × α)
  | [] => [(k, v)]
  | (k', v') :: t => if k' = k then (k, v) :: t else (k', v') :: upsertA k v t

/-- Lookup in an association list. -/
def lookupA {α : Type} (k : String × String) :
    List ((String × String) × α) → Option α
  | [] => none
  | (k', v') :: t => if k' = k then some v' else lookupA k t

/-- The mutable state of `InstanceRegistry`: property getters and property
setters keyed by (class name, property name). -/
structure Registry where
  getters : List ((String × String) × PropGetter)
  setters : List ((String × String) × PropSetter)

def Registry.empty : Registry := ⟨[], []⟩

def Registry.lookupGetter (r : Registry) (cn pn : String) : Option PropGetter :=
  lookupA (cn, pn) r.getters

def Registry.lookupSetter (r : Registry) (cn pn : String) : Option PropSetter :=
  lookupA (cn, pn) r.setters

/-- Modelled from the spec: `InstanceRegistry::insert_property_getter`
(missing from the included sources) — an idempotent upsert, last write wins,
no validation that the class exists; a rare underlying mapping failure
(`RegistryError`) is injected through the `badG` predicate. -/
def insert_property_getter (badG : String → String → Bool) (r : Registry)
    (cn pn : String) (g : PropGetter) : Except RegistryError Registry :=
  if badG cn pn then .error (.mappingFailure cn pn)
  else .ok { r with getters := upsertA (cn, pn) g r.getters }

/-- Modelled from the spec: `InstanceRegistry::insert_property_setter`
(missing from the included sources) — same upsert semantics, with failures
injected through `badS`. -/
def insert_property_setter (badS : String → String → Bool) (r : Registry)
    (cn pn : String) (s : PropSetter) : Except RegistryError Registry :=
  if badS cn pn then .error (.mappingFailure cn pn)
  else .ok { r with setters := upsertA (cn, pn) s r.setters }

/-- The setter synthesized by `implement_property` when none is supplied:
`Err(LuaError::runtime(format!("Property '{property_name}' is read-only")))`
for every call. -/
def read_only_setter (property_name : String) : PropSetter :=
  fun _ => .error (.runtime ("Property '" ++ property_name ++ "' is read-only"))

/-- `implement_property` from `lib.rs`: default the setter to the synthesized
read-only one, insert the getter, then insert the setter. Registry mutation
is in place, so the registry component of the result reflects whatever
inserts happened before an error. -/
def implement_property (badG badS : String → String → Bool) (r : Registry)
    (class_name property_name : String) (property_getter : PropGetter)
    (property_setter : Option PropSetter) : Except LuaError Unit × Registry :=
  let setter :=
    match property_setter with
    | some s => s
    | none => read_only_setter property_name
  match insert_property_getter badG r class_name property_name property_getter with
  | .error e => (.error (registry_err_to_lua e), r)
  | .ok r1 =>
    match insert_property_setter badS r1 class_name property_name setter with
    | .error e => (.error (registry_err_to_lua e), r1)
    | .ok r2 => (.ok (), r2)

/-! ## The derived ByteSize property -/

/-- The ByteSize getter closure from `implement_byte_size_property`,
parameterized by the codec operations it calls (so that arbitrary, including
deliberately broken, codec behaviour is covered): if the instance's class is
`"DataModel"` wrap it as a `Place` document, otherwise as a single-element
`Model` document, returning `Ok(0)` on a wrap error; then encode with the
`Binary` format, returning the byte count on success and `Ok(0)` on an encode
error. -/
def byte_size_getter
    (wrapPlace : Inst → Except DocumentError Document)
    (wrapModel : List Inst → Except DocumentError Document)
    (encode : Document → DocumentFormat → Except DocumentError (List Tok))
    (instance_ : Inst) : Except LuaError Nat :=
  let wrapped :=
    if instance_.className = "DataModel" then wrapPlace instance_
    else wrapModel [instance_]
  match wrapped with
  | .error _ => .ok 0
  | .ok doc =>
    match encode doc .Binary with
    | .ok bytes => .ok bytes.length
    | .error _ => .ok 0

/-- Steps 1–3 of the spec's ByteSize getter, written from the spec's words
("wraps it as a Place document (root case) or a single-element Model document
(non-root case); encodes it with the Binary format and returns the resulting
byte count") as one monadic pipeline, for comparison with the code-derived
`byte_size_getter`. -/
def byte_size_spec_steps
    (wrapPlace : Inst → Except DocumentError Document)
    (wrapModel : List Inst → Except DocumentError Document)
    (encode : Document → DocumentFormat → Except DocumentError (List Tok))
    (instance_ : Inst) : Except DocumentError Nat :=
  ((if instance_.className = "DataModel" then wrapPlace instance_
    else wrapModel [instance_]).bind
      (fun doc => encode doc .Binary)).map List.length

/-- The ByteSize getter as stored in the registry (its `u64` result converted
into a Lua value), instantiated with the document codec. -/
def byte_size_getter_lua : PropGetter :=
  fun i =>
    (byte_size_getter Document.from_data_model_instance Document.from_instance_array
      Document.to_bytes_with_format i).map Value.num

/-- The ByteSize setter closure from `implement_byte_size_property`:
unconditionally `Err(LuaError::runtime(format!("Property '{}' is read-only",
property_name)))` with `property_name = "ByteSize"`. -/
def byte_size_setter : PropSetter :=
  fun _ => .error (.runtime "Property 'ByteSize' is read-only")

/-- `implement_byte_size_property` from `lib.rs`: build the getter and setter
closures for the fixed property name `"ByteSize"`, insert the getter, then
insert the setter. -/
def implement_byte_size_property (badG badS : String → String → Bool)
    (r : Registry) (class_name : String) : Except LuaError Unit × Registry :=
  let property_name := "ByteSize"
  let getter := byte_size_getter_lua
  let setter := byte_size_setter
  match insert_property_getter badG r class_name property_name getter with
  | .error e => (.error (registry_err_to_lua e), r)
  | .ok r1 =>
    match insert_property_setter badS r1 class_name property_name setter with
    | .error e => (.error (registry_err_to_lua e), r1)
    | .ok r2 => (.ok (), r2)

/-- The reporting line printed by the installer loop when one class fails:
`eprintln!("Failed to implement ByteSize for class {}: {}", class, e)`. -/
def byte_size_failure_report (class_name : String) (e : LuaError) : String :=
  "Failed to implement ByteSize for class " ++ class_name ++ ": " ++
    (match e with
     | .runtime m => m
     | .external m => m)

/-- The `for class_name in db.get_class_names()` loop body of
`implement_byte_size_for_all_classes`: on a per-class error, report it and
continue with the remaining classes. Returns the final registry and the
reported failure lines, in order. -/
def byte_size_install_loop (badG badS : String → String → Bool) :
    List String → Registry → List String → Registry × List String
  | [], r, log => (r, log)
  | c :: rest, r, log =>
    match implement_byte_size_property badG badS r c with
    | (.error e, r') =>
      byte_size_install_loop badG badS rest r' (log ++ [byte_size_failure_report c e])
    | (.ok _, r') => byte_size_install_loop badG badS rest r' log

/-! ## The reflection database singleton -/

/-- The reflection database: enumerates the known class names
(`Database::get_class_names`), deterministic for a given build. -/
structure Database where
  classNames : List String
deriving DecidableEq, Repr

/-- Process-global state relevant to the singleton: the `REFLECTION_DATABASE`
`OnceLock` cell and a count of how many times the database constructor has
run. -/
structure ProcState where
  cell : Option Database
  newCount : Nat
deriving DecidableEq, Repr

/-- Modelled from the spec: `ReflectionDatabase::new` (missing from the
included sources) — constructs the database, deterministic for a given build
(the `build` argument); each run is counted in the process state. -/
def database_new (build : Database) (s : ProcState) : Database × ProcState :=
  (build, { s with newCount := s.newCount + 1 })

/-- `get_reflection_database` from `lib.rs`:
`REFLECTION_DATABASE.get_or_init(ReflectionDatabase::new)` — return the
stored value if the `OnceLock` is initialized, otherwise run the constructor
once and store its result. -/
def get_reflection_database (build : Database) (s : ProcState) : Database × ProcState :=
  match s.cell with
  | some db => (db, s)
  | none =>
    let (db, s') := database_new build s
    (db, { s' with cell := some db })

/-- `implement_byte_size_for_all_classes` from `lib.rs`: obtain a database via
`Database::new()` (not via the `REFLECTION_DATABASE` `OnceLock`), loop over
its class names installing ByteSize with per-class error reporting, and
return `Ok(())` unconditionally. -/
def implement_byte_size_for_all_classes (badG badS : String → String → Bool)
    (build : Database) (s : ProcState) (r : Registry) :
    Except LuaError Unit × ProcState × Registry × List String :=
  let (db, s') := database_new build s
  let (r', log) := byte_size_install_loop badG badS db.classNames r []
  (.ok (), s', r', log)

/-! ## The module table -/

/-- What a module-table entry is, as far as the builder observes it: the
constants copied from the inner roblox module, an async function binding, or
a plain function binding. -/
inductive EntryKind where
  | constant : EntryKind
  | asyncFunction : EntryKind
  | function : EntryKind
deriving DecidableEq, Repr

/-- A Lua table as the host observes it here: its entries and its Luau
read-only flag. A raw set on a read-only table fails. -/
structure LuaTable where
  entries : List (String × EntryKind)
  readonly : Bool
deriving DecidableEq, Repr

/-- Modelled from the spec: `lune_utils::TableBuilder` (missing from the
included sources) — accumulates entries in insertion order; `build_readonly`
produces the table with its read-only flag set. -/
def TableBuilder.with_values (entries newEntries : List (String × EntryKind)) :
    List (String × EntryKind) :=
  entries ++ newEntries

def TableBuilder.with_async_function (entries : List (String × EntryKind))
    (name : String) : List (String × EntryKind) :=
  entries ++ [(name, .asyncFunction)]

def TableBuilder.with_function (entries : List (String × EntryKind))
    (name : String) : List (String × EntryKind) :=
  entries ++ [(name, .function)]

def TableBuilder.build_readonly (entries : List (String × EntryKind)) : LuaTable :=
  { entries := entries, readonly := true }

/-- Upsert for string-keyed entry lists. -/
def upsertEntry (key : String) (k : EntryKind) :
    List (String × EntryKind) → List (String × EntryKind)
  | [] => [(key, k)]
  | (k', v') :: t => if k' = key then (key, k) :: t else (k', v') :: upsertEntry key k t

/-- Modelled from the spec: a raw table mutation by the host (add, overwrite
when `v` is a value, or remove when `v` is `none`) — on a read-only table it
fails; otherwise it updates the entries. -/
def lua_table_raw_set (t : LuaTable) (key : String) (v : Option EntryKind) :
    Except LuaError LuaTable :=
  if t.readonly then .error (.runtime "attempt to modify a readonly table")
  else
    match v with
    | some k => .ok { t with entries := upsertEntry key k t.entries }
    | none => .ok { t with entries := t.entries.filter (fun p => p.1 ≠ key) }

/-- `module` from `lib.rs`: copy the inner roblox module's constants, add the
four async codec entry points and the eight plain function entry points in
source order, and build the table read-only. -/
def module_ (roblox_constants : List (String × EntryKind)) : LuaTable :=
  TableBuilder.build_readonly
    (TableBuilder.with_function
      (TableBuilder.with_function
        (TableBuilder.with_function
          (TableBuilder.with_function
            (TableBuilder.with_function
              (TableBuilder.with_function
                (TableBuilder.with_function
                  (TableBuilder.with_function
                    (TableBuilder.with_async_function
                      (TableBuilder.with_async_function
                        (TableBuilder.with_async_function
                          (TableBuilder.with_async_function
                            (TableBuilder.with_values [] roblox_constants)
                            "deserializePlace")
                          "deserializeModel")
                        "serializePlace")
                      "serializeModel")
                    "getAuthCookie")
                  "getReflectionDatabase")
                "implementProperty")
              "implementMethod")
            "studioApplicationPath")
          "studioContentPath")
        "studioPluginPath")
      "studioBuiltinPluginPath")

/-! ## Codec lemmas -/

theorem decodeValue_encodeValue (v : Value) (rest : List Tok) :
    decodeValue (encodeValue v ++ rest) = some (v, rest) := by
  cases v with
  | nil => rfl
  | boolean b => cases b <;> rfl
  | num n => rfl
  | str s => rfl

theorem decodeProps_encodeProps (ps : List (String × Value)) (rest : List Tok) :
    decodeProps ps.length (encodeProps ps ++ rest) = some (ps, rest) := by
  induction ps with
  | nil => rfl
  | cons p t ih =>
    obtain ⟨name, v⟩ := p
    simp [encodeProps, encodeProp, decodeProps, List.append_assoc,
      decodeValue_encodeValue, ih]

theorem encodeInst_length_pos (i : Inst) : 0 < (encodeInst i).length := by
  cases i; simp [encodeInst]

/-- Decoding inverts encoding once the fuel dominates the token count:
simultaneously for one instance and for counted instance sequences. -/
theorem decode_encode (fuel : Nat) :
    (∀ i rest, (encodeInst i).length ≤ fuel →
      decodeInst fuel (encodeInst i ++ rest) = some (i, rest)) ∧
    (∀ l rest, (encodeList l).length ≤ fuel →
      decodeInstList fuel l.length (encodeList l ++ rest) = some (l, rest)) := by
  induction fuel with
  | zero =>
    constructor
    · intro i rest h
      exact absurd h (by have := encodeInst_length_pos i; omega)
    · intro l rest h
      cases l with
      | nil => simp [encodeList, decodeInstList]
      | cons i t =>
        exfalso
        have hp := encodeInst_length_pos i
        simp only [encodeList, List.length_append] at h
        omega
  | succ f ih =>
    have hP : ∀ i rest, (encodeInst i).length ≤ f + 1 →
        decodeInst (f + 1) (encodeInst i ++ rest) = some (i, rest) := by
      intro i rest h
      obtain ⟨c, ps, ch⟩ := i
      simp only [encodeInst, List.length_cons, List.length_append] at h
      have hch := ih.2 ch rest (by omega)
      simp [encodeInst, List.append_assoc, decodeInst,
        decodeProps_encodeProps, hch]
    have hQ : ∀ l rest, (encodeList l).length ≤ f + 1 →
        decodeInstList (f + 1) l.length (encodeList l ++ rest) = some (l, rest) := by
      intro l
      induction l with
      | nil => intro rest _; simp [encodeList, decodeInstList]
      | cons i t iht =>
        intro rest h
        simp only [encodeList, List.length_append] at h
        have h1 := hP i (encodeList t ++ rest) (by omega)
        have h2 := iht rest (by omega)
        simp [encodeList, List.append_assoc, decodeInstList, h1, h2]
    exact ⟨hP, hQ⟩

/-- Document-level round trip for `Place` documents. -/
theorem from_bytes_to_bytes_place (root : Inst) (f : DocumentFormat) (bs : List Tok)
    (h : (Document.place root).to_bytes_with_format f = .ok bs) :
    Document.from_bytes bs .Place = .ok (.place root) := by
  have hbs : bs = .nat (fmtMagic f) :: .nat 0 :: encodeInst root := by
    simpa [Document.to_bytes_with_format] using h.symm
  subst hbs
  have hdec := (decode_encode ((encodeInst root).length + 1)).1 root []
    (by omega)
  rw [List.append_nil] at hdec
  cases f <;>
    simp [Document.from_bytes, fmtMagic, hdec]

/-- Document-level round trip for `Model` documents. -/
theorem from_bytes_to_bytes_model (roots : List Inst) (f : DocumentFormat) (bs : List Tok)
    (h : (Document.model roots).to_bytes_with_format f = .ok bs) :
    Document.from_bytes bs .Model = .ok (.model roots) := by
  have hbs : bs = .nat (fmtMagic f) :: .nat 1 :: .nat roots.length :: encodeList roots := by
    simpa [Document.to_bytes_with_format] using h.symm
  subst hbs
  have hdec := (decode_encode ((encodeList roots).length + 1)).2 roots []
    (by omega)
  rw [List.append_nil] at hdec
  cases f <;>
    simp [Document.from_bytes, fmtMagic, hdec]

/-! ## Registry lemmas -/

theorem lookupA_upsertA_self {α : Type} (k : String × String) (v : α)
    (l : List ((String × String) × α)) : lookupA k (upsertA k v l) = some v := by
  induction l with
  | nil => simp [upsertA, lookupA]
  | cons p t ih =>
    obtain ⟨k', v'⟩ := p
    by_cases h : k' = k
    · simp [upsertA, lookupA, h]
    · simp [upsertA, lookupA, h, ih]

theorem lookupA_upsertA_other {α : Type} (k k' : String × String) (v : α)
    (l : List ((String × String) × α)) (hne : k' ≠ k) :
    lookupA k' (upsertA k v l) = lookupA k' l := by
  induction l with
  | nil => simp [upsertA, lookupA, Ne.symm hne]
  | cons p t ih =>
    obtain ⟨k₀, v₀⟩ := p
    by_cases h : k₀ = k
    · subst h
      simp [upsertA, lookupA, Ne.symm hne]
    · simp only [upsertA, if_neg h]
      by_cases h' : k₀ = k'
      · simp [lookupA, h']
      · simp [lookupA, h', ih]

/-- Helper: the ByteSize getter closure always returns `Ok`, whatever the
codec does. -/
theorem byte_size_getter_ok
    (wp : Inst → Except DocumentError Document)
    (wm : List Inst → Except DocumentError Document)
    (enc : Document → DocumentFormat → Except DocumentError (List Tok))
    (i : Inst) : ∃ n : Nat, byte_size_getter wp wm enc i = .ok n := by
  unfold byte_size_getter
  cases h : (if i.className = "DataModel" then wp i else wm [i]) with
  | error e => exact ⟨0, by simp [h]⟩
  | ok doc =>
    cases h2 : enc doc .Binary with
    | ok bytes => exact ⟨bytes.length, by simp [h, h2]⟩
    | error e => exact ⟨0, by simp [h, h2]⟩

/-- C1: reading the derived ByteSize property never raises: for any codec
behaviour (including deliberately broken wrap or encode paths) the getter
returns `Ok` with a natural number, and on any wrap or encode failure that
number is `0` rather than a propagated error. -/
theorem byte_size_never_raises
    (wp : Inst → Except DocumentError Document)
    (wm : List Inst → Except DocumentError Document)
    (enc : Document → DocumentFormat → Except DocumentError (List Tok))
    (i : Inst) :
    (∃ n : Nat, byte_size_getter wp wm enc i = .ok n) ∧
    (∃ v : Value, byte_size_getter_lua i = .ok v) ∧
    (∀ e, (if i.className = "DataModel" then wp i else wm [i]) = .error e →
      byte_size_getter wp wm enc i = .ok 0) ∧
    (∀ doc e, (if i.className = "DataModel" then wp i else wm [i]) = .ok doc →
      enc doc .Binary = .error e → byte_size_getter wp wm enc i = .ok 0) := by
  refine ⟨byte_size_getter_ok wp wm enc i, ?_, ?_, ?_⟩
  · obtain ⟨n, hn⟩ := byte_size_getter_ok Document.from_data_model_instance
      Document.from_instance_array Document.to_bytes_with_format i
    exact ⟨.num n, by simp [byte_size_getter_lua, hn, Except.map]⟩
  · intro e he
    simp [byte_size_getter, he]
  · intro doc e hdoc henc
    simp [byte_size_getter, hdoc, henc]

/-- C1 witness: with a codec whose wrap and encode paths always fail, the
getter still returns `Ok(0)`. -/
theorem byte_size_never_raises_witness :
    byte_size_getter (fun _ => .error .malformed) (fun _ => .error .malformed)
      (fun _ _ => .error .malformed) (.mk "DataModel" [] []) = .ok 0 :=
  (byte_size_never_raises (fun _ => .error .malformed) (fun _ => .error .malformed)
      (fun _ _ => .error .malformed) (.mk "DataModel" [] [])).2.2.1 .malformed rfl

/-- C4: the ByteSize getter follows exactly the specified steps — wrap as a
`Place` document when the class name is `"DataModel"`, otherwise as a
single-element `Model` document; encode with the `Binary` format; return the
byte count — with every failure downgraded to `0`. -/
theorem byte_size_getter_steps
    (wp : Inst → Except DocumentError Document)
    (wm : List Inst → Except DocumentError Document)
    (enc : Document → DocumentFormat → Except DocumentError (List Tok))
    (i : Inst) :
    byte_size_getter wp wm enc i =
      .ok (match byte_size_spec_steps wp wm enc i with
           | .ok n => n
           | .error _ => 0) := by
  unfold byte_size_getter byte_size_spec_steps
  cases h : (if i.className = "DataModel" then wp i else wm [i]) with
  | error e => simp [h, Except.bind, Except.map]
  | ok doc =>
    cases h2 : enc doc .Binary with
    | ok bytes => simp [h, h2, Except.bind, Except.map]
    | error e => simp [h, h2, Except.bind, Except.map]

/-- C2: `implement_property` with a getter but no setter succeeds and installs
the synthesized read-only setter, which fails on every call with a runtime
error naming exactly the property; the ByteSize setter fails with the same
kind of error naming `ByteSize`. -/
theorem implement_property_read_only_default
    (r : Registry) (cn pn : String) (g : PropGetter) (args : List Value) :
    (implement_property (fun _ _ => false) (fun _ _ => false) r cn pn g none).1 = .ok () ∧
    (implement_property (fun _ _ => false) (fun _ _ => false) r cn pn g none).2.lookupSetter cn pn
      = some (read_only_setter pn) ∧
    read_only_setter pn args =
      .error (.runtime ("Property '" ++ pn ++ "' is read-only")) ∧
    (implement_byte_size_property (fun _ _ => false) (fun _ _ => false) r cn).2.lookupSetter
      cn "ByteSize" = some byte_size_setter ∧
    byte_size_setter args = .error (.runtime "Property 'ByteSize' is read-only") ∧
    byte_size_setter = read_only_setter "ByteSize" := by
  refine ⟨?_, ?_, rfl, ?_, rfl, ?_⟩
  · simp [implement_property, insert_property_getter, insert_property_setter]
  · simp [implement_property, insert_property_getter, insert_property_setter,
      Registry.lookupSetter, lookupA_upsertA_self]
  · simp [implement_byte_size_property, insert_property_getter, insert_property_setter,
      Registry.lookupSetter, lookupA_upsertA_self]
  · funext a
    show Except.error (LuaError.runtime "Property 'ByteSize' is read-only") =
      Except.error (LuaError.runtime ("Property '" ++ "ByteSize" ++ "' is read-only"))
    have : "Property 'ByteSize' is read-only" =
        "Property '" ++ "ByteSize" ++ "' is read-only" := by decide
    rw [this]

/-- C9: `implement_property` is not atomic: when the getter insert succeeds
but the setter insert fails, it returns an error while the getter is already
installed, and the setter map is left as it was. -/
theorem implement_property_partial_mutation
    (badG badS : String → String → Bool) (r : Registry) (cn pn : String)
    (g : PropGetter) (s : Option PropSetter)
    (hG : badG cn pn = false) (hS : badS cn pn = true) :
    (implement_property badG badS r cn pn g s).1 =
      .error (registry_err_to_lua (.mappingFailure cn pn)) ∧
    (implement_property badG badS r cn pn g s).2.lookupGetter cn pn = some g ∧
    (implement_property badG badS r cn pn g s).2.setters = r.setters := by
  refine ⟨?_, ?_, ?_⟩ <;>
    simp [implement_property, insert_property_getter, insert_property_setter, hG, hS,
      Registry.lookupGetter, lookupA_upsertA_self]

/-- A trivial getter used by concrete witnesses. -/
def null_getter : PropGetter := fun _ => .ok .nil

/-- C9 witness: a concrete run where the setter insert fails after the getter
insert succeeded. -/
theorem implement_property_partial_mutation_witness :
    (implement_property (fun _ _ => false) (fun _ _ => true) Registry.empty
      "Part" "Size" null_getter none).1 =
      .error (registry_err_to_lua (.mappingFailure "Part" "Size")) ∧
    (implement_property (fun _ _ => false) (fun _ _ => true) Registry.empty
      "Part" "Size" null_getter none).2.lookupGetter "Part" "Size" = some null_getter ∧
    (implement_property (fun _ _ => false) (fun _ _ => true) Registry.empty
      "Part" "Size" null_getter none).2.setters = Registry.empty.setters :=
  implement_property_partial_mutation (fun _ _ => false) (fun _ _ => true)
    Registry.empty "Part" "Size" null_getter none rfl rfl

/-- C6: serialization encodes with `Xml` exactly when `asXml` is supplied and
equal to `true`; any other argument (absent or `false`) selects `Binary`; and
both `serialize_place` and `serialize_model` encode the wrapped document with
that chosen format. -/
theorem serialize_xml_iff_some_true (a : Option Bool) (i : Inst) (l : List Inst) :
    (chosen_format a = .Xml ↔ a = some true) ∧
    (a ≠ some true → chosen_format a = .Binary) ∧
    (∃ bs, serialize_place i a = .ok bs ∧
      (Document.place i).to_bytes_with_format (chosen_format a) = .ok bs) ∧
    (∃ bs, serialize_model l a = .ok bs ∧
      (Document.model l).to_bytes_with_format (chosen_format a) = .ok bs) := by
  refine ⟨?_, ?_, ⟨_, rfl, rfl⟩, ⟨_, rfl, rfl⟩⟩
  · cases a with
    | none => simp [chosen_format]
    | some b => cases b <;> simp [chosen_format]
  · intro h
    cases a with
    | none => rfl
    | some b => cases b with
      | true => exact absurd rfl h
      | false => rfl

/-- C6 witness: an absent `asXml` selects `Binary` and `asXml = true` selects
`Xml`. -/
theorem serialize_xml_iff_some_true_witness :
    chosen_format none = .Binary ∧ chosen_format (some true) = .Xml := by
  have h1 := serialize_xml_iff_some_true none (.mk "Part" [] []) []
  have h2 := serialize_xml_iff_some_true (some true) (.mk "Part" [] []) []
  exact ⟨h1.2.1 (by simp), h2.1.mpr rfl⟩

/-- C10: the module table is built read-only with its entry points fixed at
construction: every host mutation attempt (add, overwrite or remove) fails,
and the entries are exactly the inner module's constants followed by the
twelve bound entry points in source order. -/
theorem module_table_fixed (consts : List (String × EntryKind)) (key : String)
    (v : Option EntryKind) :
    (module_ consts).readonly = true ∧
    lua_table_raw_set (module_ consts) key v =
      .error (.runtime "attempt to modify a readonly table") ∧
    (module_ consts).entries = consts ++
      [("deserializePlace", .asyncFunction), ("deserializeModel", .asyncFunction),
       ("serializePlace", .asyncFunction), ("serializeModel", .asyncFunction),
       ("getAuthCookie", .function), ("getReflectionDatabase", .function),
       ("implementProperty", .function), ("implementMethod", .function),
       ("studioApplicationPath", .function), ("studioContentPath", .function),
       ("studioPluginPath", .function), ("studioBuiltinPluginPath", .function)] := by
  refine ⟨rfl, ?_, ?_⟩
  · simp [lua_table_raw_set, module_, TableBuilder.build_readonly]
  · simp [module_, TableBuilder.build_readonly, TableBuilder.with_values,
      TableBuilder.with_async_function, TableBuilder.with_function]

/-! ## Installer loop lemmas -/

/-- One install step never disturbs an already-installed ByteSize
implementation for any class, whether the step succeeds or fails. -/
theorem implement_byte_size_property_preserves
    (badG badS : String → String → Bool) (r : Registry) (c c' : String)
    (hg : r.lookupGetter c "ByteSize" = some byte_size_getter_lua)
    (hs : r.lookupSetter c "ByteSize" = some byte_size_setter) :
    (implement_byte_size_property badG badS r c').2.lookupGetter c "ByteSize"
      = some byte_size_getter_lua ∧
    (implement_byte_size_property badG badS r c').2.lookupSetter c "ByteSize"
      = some byte_size_setter := by
  simp only [Registry.lookupGetter, Registry.lookupSetter] at hg hs
  by_cases hk : ((c', "ByteSize") : String × String) = (c, "ByteSize")
  · cases hbg : badG c' "ByteSize" <;> cases hbs : badS c' "ByteSize" <;>
      simp [implement_byte_size_property, insert_property_getter, insert_property_setter,
        hbg, hbs, Registry.lookupGetter, Registry.lookupSetter, hk,
        lookupA_upsertA_self, hg, hs]
  · cases hbg : badG c' "ByteSize" <;> cases hbs : badS c' "ByteSize" <;>
      simp [implement_byte_size_property, insert_property_getter, insert_property_setter,
        hbg, hbs, Registry.lookupGetter, Registry.lookupSetter,
        lookupA_upsertA_other _ _ _ _ (fun h => hk (h.symm)), hg, hs]

/-- The install loop never disturbs an already-installed ByteSize
implementation. -/
theorem byte_size_install_loop_preserves
    (badG badS : String → String → Bool) (classes : List String) :
    ∀ (r : Registry) (log : List String) (c : String),
      r.lookupGetter c "ByteSize" = some byte_size_getter_lua →
      r.lookupSetter c "ByteSize" = some byte_size_setter →
      (byte_size_install_loop badG badS classes r log).1.lookupGetter c "ByteSize"
        = some byte_size_getter_lua ∧
      (byte_size_install_loop badG badS classes r log).1.lookupSetter c "ByteSize"
        = some byte_size_setter := by
  induction classes with
  | nil => intro r log c hg hs; exact ⟨hg, hs⟩
  | cons c' rest ih =>
    intro r log c hg hs
    have hpres := implement_byte_size_property_preserves badG badS r c c' hg hs
    cases h : implement_byte_size_property badG badS r c' with
    | mk res r' =>
      rw [h] at hpres
      cases res with
      | error e =>
        simpa [byte_size_install_loop, h] using ih r' _ c hpres.1 hpres.2
      | ok u =>
        simpa [byte_size_install_loop, h] using ih r' _ c hpres.1 hpres.2

/-- A successful install step stores the ByteSize getter and setter. -/
theorem implement_byte_size_property_installs
    (badG badS : String → String → Bool) (r : Registry) (c : String)
    (hG : badG c "ByteSize" = false) (hS : badS c "ByteSize" = false) :
    (implement_byte_size_property badG badS r c).1 = .ok () ∧
    (implement_byte_size_property badG badS r c).2.lookupGetter c "ByteSize"
      = some byte_size_getter_lua ∧
    (implement_byte_size_property badG badS r c).2.lookupSetter c "ByteSize"
      = some byte_size_setter := by
  refine ⟨?_, ?_, ?_⟩ <;>
    simp [implement_byte_size_property, insert_property_getter, insert_property_setter,
      hG, hS, Registry.lookupGetter, Registry.lookupSetter, lookupA_upsertA_self]

/-- The install loop only ever appends to the report log. -/
theorem byte_size_install_loop_log_extends
    (badG badS : String → String → Bool) (classes : List String) :
    ∀ (r : Registry) (log : List String),
      ∃ tail, (byte_size_install_loop badG badS classes r log).2 = log ++ tail := by
  induction classes with
  | nil => intro r log; exact ⟨[], by simp [byte_size_install_loop]⟩
  | cons c' rest ih =>
    intro r log
    cases h : implement_byte_size_property badG badS r c' with
    | mk res r' =>
      cases res with
      | error e =>
        obtain ⟨tail, ht⟩ := ih r' (log ++ [byte_size_failure_report c' e])
        exact ⟨[byte_size_failure_report c' e] ++ tail, by
          simp [byte_size_install_loop, h, ht]⟩
      | ok u =>
        obtain ⟨tail, ht⟩ := ih r' log
        exact ⟨tail, by simp [byte_size_install_loop, h, ht]⟩

/-- A failing install step returns exactly the mapping-failure error for that
class. -/
theorem implement_byte_size_property_fails
    (badG badS : String → String → Bool) (r : Registry) (c : String)
    (hbad : (badG c "ByteSize" || badS c "ByteSize") = true) :
    (implement_byte_size_property badG badS r c).1 =
      .error (registry_err_to_lua (.mappingFailure c "ByteSize")) := by
  cases hbg : badG c "ByteSize" with
  | true =>
    simp [implement_byte_size_property, insert_property_getter, hbg]
  | false =>
    rw [hbg] at hbad
    simp only [Bool.false_or] at hbad
    simp [implement_byte_size_property, insert_property_getter, insert_property_setter,
      hbg, hbad]

/-- Every class whose install fails gets its failure reported in the log. -/
theorem byte_size_install_loop_reports
    (badG badS : String → String → Bool) (classes : List String) :
    ∀ (r : Registry) (log : List String) (c : String), c ∈ classes →
      (badG c "ByteSize" || badS c "ByteSize") = true →
      byte_size_failure_report c (registry_err_to_lua (.mappingFailure c "ByteSize"))
        ∈ (byte_size_install_loop badG badS classes r log).2 := by
  induction classes with
  | nil => intro r log c hmem; exact absurd hmem (by simp)
  | cons c' rest ih =>
    intro r log c hmem hbad
    rcases List.mem_cons.mp hmem with heq | hmem'
    · subst heq
      have hfail := implement_byte_size_property_fails badG badS r c hbad
      cases h : implement_byte_size_property badG badS r c with
      | mk res r' =>
        rw [h] at hfail
        simp only at hfail
        subst hfail
        obtain ⟨tail, ht⟩ := byte_size_install_loop_log_extends badG badS rest r'
          (log ++ [byte_size_failure_report c
            (registry_err_to_lua (.mappingFailure c "ByteSize"))])
        simp [byte_size_install_loop, h, ht]
    · cases h : implement_byte_size_property badG badS r c' with
      | mk res r' =>
        cases res with
        | error e => simpa [byte_size_install_loop, h] using ih r' _ c hmem' hbad
        | ok u => simpa [byte_size_install_loop, h] using ih r' _ c hmem' hbad

/-- Every class whose inserts succeed ends up with the ByteSize getter and
setter installed after the loop, regardless of other classes' failures. -/
theorem byte_size_install_loop_installs
    (badG badS : String → String → Bool) (classes : List String) :
    ∀ (r : Registry) (log : List String) (c : String), c ∈ classes →
      badG c "ByteSize" = false → badS c "ByteSize" = false →
      (byte_size_install_loop badG badS classes r log).1.lookupGetter c "ByteSize"
        = some byte_size_getter_lua ∧
      (byte_size_install_loop badG badS classes r log).1.lookupSetter c "ByteSize"
        = some byte_size_setter := by
  induction classes with
  | nil => intro r log c hmem; exact absurd hmem (by simp)
  | cons c' rest ih =>
    intro r log c hmem hG hS
    by_cases hc : c = c'
    · subst hc
      have hinst := implement_byte_size_property_installs badG badS r c hG hS
      cases h : implement_byte_size_property badG badS r c with
      | mk res r' =>
        rw [h] at hinst
        simp only at hinst
        obtain ⟨hres, hg', hs'⟩ := hinst
        subst hres
        simpa [byte_size_install_loop, h] using
          byte_size_install_loop_preserves badG badS rest r' log c hg' hs'
    · have hmem' : c ∈ rest := by
        rcases List.mem_cons.mp hmem with h' | h'
        · exact absurd h' hc
        · exact h'
      cases h : implement_byte_size_property badG badS r c' with
      | mk res r' =>
        cases res with
        | error e => simpa [byte_size_install_loop, h] using ih r' _ c hmem' hG hS
        | ok u => simpa [byte_size_install_loop, h] using ih r' _ c hmem' hG hS

/-- C3: the installer loop itself never returns an error; every class whose
inserts succeed has a working ByteSize property afterwards even when other
classes fail; and every failing class has its failure reported. -/
theorem byte_size_installer_resilient
    (badG badS : String → String → Bool) (build : Database) (s : ProcState)
    (r : Registry) :
    (implement_byte_size_for_all_classes badG badS build s r).1 = .ok () ∧
    (∀ c ∈ build.classNames, badG c "ByteSize" = false → badS c "ByteSize" = false →
      (implement_byte_size_for_all_classes badG badS build s r).2.2.1.lookupGetter
        c "ByteSize" = some byte_size_getter_lua ∧
      (implement_byte_size_for_all_classes badG badS build s r).2.2.1.lookupSetter
        c "ByteSize" = some byte_size_setter) ∧
    (∀ c ∈ build.classNames, (badG c "ByteSize" || badS c "ByteSize") = true →
      byte_size_failure_report c (registry_err_to_lua (.mappingFailure c "ByteSize"))
        ∈ (implement_byte_size_for_all_classes badG badS build s r).2.2.2) := by
  refine ⟨rfl, ?_, ?_⟩
  · intro c hmem hG hS
    exact byte_size_install_loop_installs badG badS build.classNames r [] c hmem hG hS
  · intro c hmem hbad
    exact byte_size_install_loop_reports badG badS build.classNames r [] c hmem hbad

/-- C3 witness: with three classes of which exactly the middle one fails, the
loop returns `Ok`, the other two classes have working ByteSize entries, and
the failing class is reported. -/
theorem byte_size_installer_resilient_witness :
    (implement_byte_size_for_all_classes (fun c _ => c == "BadClass") (fun _ _ => false)
      ⟨["Workspace", "BadClass", "Part"]⟩ ⟨none, 0⟩ Registry.empty).1 = .ok () ∧
    (implement_byte_size_for_all_classes (fun c _ => c == "BadClass") (fun _ _ => false)
      ⟨["Workspace", "BadClass", "Part"]⟩ ⟨none, 0⟩ Registry.empty).2.2.1.lookupGetter
      "Part" "ByteSize" = some byte_size_getter_lua ∧
    byte_size_failure_report "BadClass"
      (registry_err_to_lua (.mappingFailure "BadClass" "ByteSize"))
      ∈ (implement_byte_size_for_all_classes (fun c _ => c == "BadClass") (fun _ _ => false)
        ⟨["Workspace", "BadClass", "Part"]⟩ ⟨none, 0⟩ Registry.empty).2.2.2 := by
  have h := byte_size_installer_resilient (fun c _ => c == "BadClass") (fun _ _ => false)
    ⟨["Workspace", "BadClass", "Part"]⟩ ⟨none, 0⟩ Registry.empty
  exact ⟨h.1, (h.2.1 "Part" (by simp) (by decide) rfl).1,
    h.2.2 "BadClass" (by simp) (by decide)⟩

/-- C5 counterexample: the ByteSize capability installer does not observe the
`REFLECTION_DATABASE` singleton — after it runs, the `OnceLock` cell is still
uninitialized, and one subsequent `get_reflection_database` call brings the
total number of database constructions to 2, refuting "the initializer runs
at most once per process" across the module's paths. -/
theorem reflection_database_constructor_reruns :
    (implement_byte_size_for_all_classes (fun _ _ => false) (fun _ _ => false)
      ⟨["DataModel"]⟩ ⟨none, 0⟩ Registry.empty).2.1.cell = none ∧
    ¬ ((get_reflection_database ⟨["DataModel"]⟩
      (implement_byte_size_for_all_classes (fun _ _ => false) (fun _ _ => false)
        ⟨["DataModel"]⟩ ⟨none, 0⟩ Registry.empty).2.1).2.newCount ≤ 1) := by
  exact ⟨rfl, by decide⟩

/-- C5 (amended): `get_reflection_database` is a proper once-initialized
singleton — a first call on an empty cell runs the constructor once and
stores the value, a call on a filled cell returns the stored value without
constructing, and the operation is idempotent; but the ByteSize capability
installer never reads the cell: it leaves the `OnceLock` untouched and runs
the database constructor unconditionally on every invocation. -/
theorem get_reflection_database_once (build : Database) (s : ProcState)
    (badG badS : String → String → Bool) (r : Registry) :
    (s.cell = none →
      get_reflection_database build s = (build, ⟨some build, s.newCount + 1⟩)) ∧
    (∀ db, s.cell = some db → get_reflection_database build s = (db, s)) ∧
    get_reflection_database build (get_reflection_database build s).2
      = get_reflection_database build s ∧
    (implement_byte_size_for_all_classes badG badS build s r).2.1.cell = s.cell ∧
    (implement_byte_size_for_all_classes badG badS build s r).2.1.newCount
      = s.newCount + 1 := by
  refine ⟨?_, ?_, ?_, rfl, rfl⟩
  · intro h
    simp [get_reflection_database, h, database_new]
  · intro db h
    simp [get_reflection_database, h]
  · cases h : s.cell with
    | none => simp [get_reflection_database, h, database_new]
    | some db => simp [get_reflection_database, h]

/-- C5 amended-theorem witness: a first call constructs and stores the
database; a call on an already-filled cell returns the stored value. -/
theorem get_reflection_database_once_witness :
    get_reflection_database ⟨["DataModel"]⟩ ⟨none, 0⟩ =
      (⟨["DataModel"]⟩, ⟨some ⟨["DataModel"]⟩, 1⟩) ∧
    get_reflection_database ⟨["DataModel"]⟩ ⟨some ⟨["Part"]⟩, 5⟩ =
      (⟨["Part"]⟩, ⟨some ⟨["Part"]⟩, 5⟩) := by
  have h1 := get_reflection_database_once ⟨["DataModel"]⟩ ⟨none, 0⟩
    (fun _ _ => false) (fun _ _ => false) Registry.empty
  have h2 := get_reflection_database_once ⟨["DataModel"]⟩ ⟨some ⟨["Part"]⟩, 5⟩
    (fun _ _ => false) (fun _ _ => false) Registry.empty
  exact ⟨h1.1 rfl, h2.2.1 ⟨["Part"]⟩ rfl⟩

/-- C7: every decode error is surfaced to the awaiting caller —
`deserialize_place` requests the `Place` kind and `deserialize_model` the
`Model` kind, any `from_bytes` error becomes the caller's error, and bytes
produced from a `Model` document always fail in `deserialize_place` with the
kind-mismatch error rather than yielding a garbage instance. -/
theorem deserialize_errors_surface (toks : List Tok) :
    (∀ e, Document.from_bytes toks .Place = .error e →
      deserialize_place toks = .error (into_lua_err e)) ∧
    (∀ e, Document.from_bytes toks .Model = .error e →
      deserialize_model toks = .error (into_lua_err e)) ∧
    (∀ (insts : List Inst) (f : DocumentFormat) (bs : List Tok),
      (Document.model insts).to_bytes_with_format f = .ok bs →
      deserialize_place bs = .error (into_lua_err .wrongKind)) := by
  refine ⟨?_, ?_, ?_⟩
  · intro e he
    simp [deserialize_place, he, Except.bind]
  · intro e he
    simp [deserialize_model, he, Except.bind]
  · intro insts f bs h
    have hbs : bs = .nat (fmtMagic f) :: .nat 1 :: .nat insts.length :: encodeList insts := by
      simpa [Document.to_bytes_with_format] using h.symm
    subst hbs
    cases f <;>
      simp [deserialize_place, Document.from_bytes, fmtMagic, Except.bind]

/-- C7 witness: malformed bytes fail in both deserializers, and the encoding
of an (empty) model fails in `deserialize_place` with the kind-mismatch
error. -/
theorem deserialize_errors_surface_witness :
    deserialize_place ([] : List Tok) = .error (into_lua_err .malformed) ∧
    deserialize_model ([] : List Tok) = .error (into_lua_err .malformed) ∧
    deserialize_place [Tok.nat 0, Tok.nat 1, Tok.nat 0] =
      .error (into_lua_err .wrongKind) := by
  have h := deserialize_errors_surface []
  exact ⟨h.1 .malformed rfl, h.2.1 .malformed rfl,
    h.2.2 [] .Binary [Tok.nat 0, Tok.nat 1, Tok.nat 0] rfl⟩

/-- C8: round trip — whatever format `asXml` selects, deserializing the bytes
produced by `serialize_place` reconstructs the root instance tree and
deserializing the bytes produced by `serialize_model` reconstructs the
instance sequence, property values and tree shape included. -/
theorem serialize_deserialize_round_trip (root : Inst) (insts : List Inst)
    (a : Option Bool) (bsP bsM : List Tok)
    (hP : serialize_place root a = .ok bsP)
    (hM : serialize_model insts a = .ok bsM) :
    deserialize_place bsP = .ok root ∧ deserialize_model bsM = .ok insts := by
  have hbsP : bsP = .nat (fmtMagic (chosen_format a)) :: .nat 0 :: encodeInst root := by
    have h := hP
    simp [serialize_place, Document.from_data_model_instance, Except.bind,
      Document.to_bytes_with_format] at h
    exact h.symm
  have hbsM : bsM = .nat (fmtMagic (chosen_format a)) :: .nat 1 ::
      .nat insts.length :: encodeList insts := by
    have h := hM
    simp [serialize_model, Document.from_instance_array, Except.bind,
      Document.to_bytes_with_format] at h
    exact h.symm
  constructor
  · have hfb := from_bytes_to_bytes_place root (chosen_format a) bsP
      (by rw [hbsP]; rfl)
    simp [deserialize_place, hfb, Except.bind, Document.into_data_model_instance]
  · have hfb := from_bytes_to_bytes_model insts (chosen_format a) bsM
      (by rw [hbsM]; rfl)
    simp [deserialize_model, hfb, Except.bind, Document.into_instance_array]

/-- A concrete place root used by the round-trip witness. -/
def wroot : Inst := .mk "DataModel" [("Name", .str "Game")] [.mk "Workspace" [] []]

/-- A concrete model instance list used by the round-trip witness. -/
def wparts : List Inst := [.mk "Part" [("Anchored", .boolean true)] []]

/-- The Binary encoding of `wroot` as a place. -/
def wroot_bytes : List Tok :=
  [.nat 0, .nat 0, .str "DataModel", .nat 1, .str "Name", .nat 3, .str "Game",
   .nat 1, .str "Workspace", .nat 0, .nat 0]

/-- The Xml encoding of `wparts` as a model. -/
def wparts_bytes : List Tok :=
  [.nat 1, .nat 1, .nat 1, .str "Part", .nat 1, .str "Anchored", .nat 1, .nat 1,
   .nat 0]

/-- The Xml encoding of `wroot` as a place. -/
def wroot_bytes_xml : List Tok :=
  [.nat 1, .nat 0, .str "DataModel", .nat 1, .str "Name", .nat 3, .str "Game",
   .nat 1, .str "Workspace", .nat 0, .nat 0]

/-- The Binary encoding of `wparts` as a model. -/
def wparts_bytes_bin : List Tok :=
  [.nat 0, .nat 1, .nat 1, .str "Part", .nat 1, .str "Anchored", .nat 1, .nat 1,
   .nat 0]

/-- C8 witness: a concrete place and a concrete model round-trip in both the
Binary (`asXml` absent) and Xml (`asXml = true`) formats. -/
theorem serialize_deserialize_round_trip_witness :
    deserialize_place wroot_bytes = .ok wroot ∧
    deserialize_model wparts_bytes = .ok wparts := by
  have h1 := serialize_deserialize_round_trip wroot wparts none wroot_bytes
    wparts_bytes_bin rfl rfl
  have h2 := serialize_deserialize_round_trip wroot wparts (some true) wroot_bytes_xml
    wparts_bytes rfl rfl
  exact ⟨h1.1, h2.2⟩

end LuneRoblox
